import Mathlib

/-!
Shallow embedding of the client-side blog application
(`assets/js/app.js`, `assets/js/features/language.js`) and proofs about
its cache/retry pipeline, search, navigation, debounce and language
switching logic.

Conventions of the embedding:
* JavaScript strings are Lean `String`s; `Map` / `localStorage` are
  association lists keyed by `String`.
* `async` functions that can only resolve are pure functions; a `try`
  block whose body can throw is an `Except String` value, and the
  corresponding `catch` is the `match` on it.
* Time is `Nat` milliseconds.  Suspensions (`setTimeout` waits inside
  the retry loop) are recorded in an explicit event trace.
* The network is an oracle `Nat → FetchOutcome` giving the outcome of
  the i-th fetch attempt for the post being loaded.
-/

namespace Blog

/-! ## Configuration constants (`CONFIG` in app.js) -/

def DEBOUNCE_DELAY : Nat := 300

def CACHE_DURATION : Nat := 3600000

def MAX_RETRIES : Nat := 3

def RETRY_DELAY_BASE : Nat := 1000

/-! ## String helpers: JavaScript string primitives -/

/-- JavaScript `s.toLowerCase()`. -/
def jsToLower (s : String) : String :=
  ⟨s.data.map Char.toLower⟩

def trimChars (l : List Char) : List Char :=
  ((l.dropWhile Char.isWhitespace).reverse.dropWhile Char.isWhitespace).reverse

/-- JavaScript `s.trim()`. -/
def jsTrim (s : String) : String :=
  ⟨trimChars s.data⟩

/-- `isPrefixB pat s` : does `s` start with `pat`? -/
def isPrefixB : List Char → List Char → Bool
  | [], _ => true
  | _ :: _, [] => false
  | p :: ps, c :: cs => p == c && isPrefixB ps cs

/-- `isInfixB pat s` : does `pat` occur contiguously inside `s`? -/
def isInfixB (pat : List Char) : List Char → Bool
  | [] => pat.isEmpty
  | c :: rest => isPrefixB pat (c :: rest) || isInfixB pat rest

/-- JavaScript `s.includes(pat)`. -/
def strContains (s pat : String) : Bool :=
  isInfixB pat.data s.data

/-! ## Data model -/

/-- A post summary as stored in `posts/index.json`.  `tags` and
`preview` are optional fields (`none` models an absent JS property). -/
structure PostSummary where
  slug : String
  title : String
  excerpt : String
  date : String
  tags : Option (List String)
  preview : Option String
deriving DecidableEq, Repr

/-! ## Search (`performSearch` in app.js) -/

/-- The filter predicate of `performSearch`: the JS expression
`post.title.toLowerCase().includes(lowerQuery) ||
 post.excerpt.toLowerCase().includes(lowerQuery) ||
 (post.tags && post.tags.some(tag => tag.toLowerCase().includes(lowerQuery)))`.
An absent `tags` field makes the third disjunct short-circuit to false. -/
def matchesQuery (lowerQuery : String) (post : PostSummary) : Bool :=
  strContains (jsToLower post.title) lowerQuery ||
  strContains (jsToLower post.excerpt) lowerQuery ||
  (match post.tags with
   | some tags => tags.any fun tag => strContains (jsToLower tag) lowerQuery
   | none => false)

/-- `performSearch(query)`: empty/whitespace query returns the full
`allPosts` list, otherwise filters by `matchesQuery`. -/
def performSearch (allPosts : List PostSummary) (query : String) : List PostSummary :=
  if jsTrim query = "" then allPosts
  else allPosts.filter (matchesQuery (jsToLower query))

/-! ## localStorage-backed persistent cache (`getFromCache`, `saveToCache`) -/

/-- A raw `localStorage` value for a `blog_post_*` key: either a JSON
record `\x7bdata, timestamp\x7d` or a string `JSON.parse` rejects. -/
inductive StoredValue where
  | entry (data : String) (timestamp : Nat)
  | corrupt
deriving DecidableEq, Repr

/-- The browser key-value store. -/
abbrev Store := List (String × StoredValue)

def storeGet (store : Store) (key : String) : Option StoredValue :=
  store.lookup key

/-- `localStorage.removeItem(key)`. -/
def storeRemove (store : Store) (key : String) : Store :=
  store.filter fun p => p.1 ≠ key

/-- `localStorage.setItem(key, v)` (overwrites any prior entry). -/
def storeSet (store : Store) (key : String) (v : StoredValue) : Store :=
  (key, v) :: storeRemove store key

/-- Cache key for a slug. -/
def blogKey (slug : String) : String :=
  "blog_post_" ++ slug

/-- The `try` body of `getFromCache(slug)`: absent key gives `null`;
a value `JSON.parse` rejects throws; otherwise the age check decides
between a hit and a lazy purge. -/
def getFromCacheBody (store : Store) (now : Nat) (slug : String) :
    Except String (Option String × Store) :=
  let key := blogKey slug
  match storeGet store key with
  | none => .ok (none, store)
  | some .corrupt => .error "Cache read error"
  | some (.entry data timestamp) =>
    let age := now - timestamp
    if age < CACHE_DURATION then .ok (some data, store)
    else .ok (none, storeRemove store key)

/-- `getFromCache(slug)`: the `catch` clause turns any error into
`null` with the store untouched. -/
def getFromCache (store : Store) (now : Nat) (slug : String) :
    Option String × Store :=
  match getFromCacheBody store now slug with
  | .ok r => r
  | .error _ => (none, store)

/-! ## Post loading with retry (`loadPost`) -/

/-- Outcome of one network fetch of `posts/slug.md`:
the promise resolves with an ok response carrying the body text,
resolves with a non-success status, or rejects. -/
inductive FetchOutcome where
  | ok (body : String)
  | httpError (status : Nat)
  | netError (msg : String)
deriving DecidableEq, Repr

/-- Environment of one `loadPost` call: the network oracle (outcome of
the i-th attempt), whether `marked` is loaded, the markdown converter,
the clock, and whether `localStorage.setItem` succeeds (quota). -/
structure FetchEnv where
  fetch : Nat → FetchOutcome
  markedDefined : Bool
  parse : String → String
  now : Nat
  storeWriteOk : Bool

/-- In-memory cache `this.loadedPosts` plus the persistent store. -/
structure BlogState where
  loadedPosts : List (String × String)
  store : Store

/-- `Map.get` on the memory cache. -/
def memLookup (m : List (String × String)) (slug : String) : Option String :=
  m.lookup slug

/-- `Map.set` on the memory cache. -/
def memSet (m : List (String × String)) (slug html : String) :
    List (String × String) :=
  (slug, html) :: m.filter fun p => p.1 ≠ slug

/-- Observable effects of a `loadPost` call. -/
inductive Ev where
  | storageRead
  | fetchAttempt (i : Nat)
  | sleep (ms : Nat)
deriving DecidableEq, Repr

/-- The fixed error fragment returned after exhausting retries, split
around the interpolated `error.message`. -/
def errPre : String :=
  "\n                        <div class=\"error-state\">\n                            <h2>😔 Пост не найден</h2>\n                            <p>К сожалению, этот пост недоступен.</p>\n                            <p style=\"font-size: 0.875rem; color: var(--text-tertiary); margin-top: 1rem;\">\n                                Ошибка: "

def errPost : String :=
  "\n                            </p>\n                            <a href=\"#\" class=\"back-button\">Вернуться к постам</a>\n                        </div>\n                    "

def errorFragment (msg : String) : String :=
  errPre ++ msg ++ errPost

/-- The `try` body of one iteration of the retry loop: throws on a
non-success status, on a rejected fetch, and when `marked` is missing;
otherwise converts the markdown. -/
def attemptBody (env : FetchEnv) (i : Nat) : Except String String :=
  match env.fetch i with
  | .ok body =>
    if env.markedDefined then .ok (env.parse body)
    else .error "Markdown парсер не загружен"
  | .httpError status => .error ("HTTP " ++ toString status)
  | .netError msg => .error msg

/-- `saveToCache(slug, data)`: a failed write is swallowed. -/
def saveToCache (env : FetchEnv) (store : Store) (slug data : String) : Store :=
  if env.storeWriteOk then storeSet store (blogKey slug) (.entry data env.now)
  else store

/-- The retry loop `for (let i = 0; i < retries; i++)` of `loadPost`,
with `remaining = retries - i`.  On success the result is cached in
both tiers; on failure the last attempt (`i === retries - 1`) returns
the error fragment, earlier ones sleep `RETRY_DELAY_BASE * (i + 1)` ms
and retry.  Falling off the loop returns `undefined` (`none`). -/
def loadAttempts (env : FetchEnv) (slug : String) (st : BlogState) :
    Nat → Nat → Option String × List Ev × BlogState
  | _, 0 => (none, [], st)
  | i, remaining + 1 =>
    match attemptBody env i with
    | .ok html =>
      let st' : BlogState :=
        { loadedPosts := memSet st.loadedPosts slug html
          store := saveToCache env st.store slug html }
      (some html, [.fetchAttempt i], st')
    | .error msg =>
      if remaining = 0 then
        (some (errorFragment msg), [.fetchAttempt i], st)
      else
        let rec' := loadAttempts env slug st (i + 1) remaining
        (rec'.1, .fetchAttempt i :: .sleep (RETRY_DELAY_BASE * (i + 1)) :: rec'.2.1,
          rec'.2.2)

/-- `loadPost(slug, retries)`: memory cache, then persistent cache
(populating memory on a hit), then the network retry loop. -/
def loadPost (env : FetchEnv) (st : BlogState) (slug : String) (retries : Nat) :
    Option String × List Ev × BlogState :=
  match memLookup st.loadedPosts slug with
  | some html => (some html, [], st)
  | none =>
    match getFromCache st.store env.now slug with
    | (some data, store') =>
      (some data, [.storageRead],
        { loadedPosts := memSet st.loadedPosts slug data, store := store' })
    | (none, store') =>
      let r := loadAttempts env slug { st with store := store' } 0 retries
      (r.1, .storageRead :: r.2.1, r.2.2)

/-- The delays slept during a trace. -/
def sleepsOf (evs : List Ev) : List Nat :=
  evs.filterMap fun e =>
    match e with
    | .sleep ms => some ms
    | _ => none

/-- The number of fetch attempts in a trace. -/
def fetchCount (evs : List Ev) : Nat :=
  (evs.filter fun e =>
    match e with
    | .fetchAttempt _ => true
    | _ => false).length

/-! ## Index loading (`loadPosts`) -/

/-- Outcome of fetching `posts/index.json`: a successful response whose
body `response.json()` either parses to a summary list or rejects
(`ok none`), a non-success status, or a rejected fetch. -/
inductive IndexOutcome where
  | ok (parsed : Option (List PostSummary))
  | httpError
  | netError
deriving DecidableEq

/-- Environment of `loadPosts`: the single fetch outcome and the
browser's `new Date(s).getTime()` primitive used by the comparator. -/
structure IndexEnv where
  outcome : IndexOutcome
  dateValue : String → Int

/-- Insertion by the sort comparator `(a, b) => new Date(b.date) - new
Date(a.date)`: `x` goes before `y` when the comparator is `≤ 0`,
i.e. `dateValue x.date ≥ dateValue y.date`. -/
def insertByDate (dv : String → Int) (x : PostSummary) :
    List PostSummary → List PostSummary
  | [] => [x]
  | y :: ys =>
    if dv y.date ≤ dv x.date then x :: y :: ys
    else y :: insertByDate dv x ys

/-- Stable sort of the copied list, newest first. -/
def sortByDateDesc (dv : String → Int) : List PostSummary → List PostSummary
  | [] => []
  | x :: xs => insertByDate dv x (sortByDateDesc dv xs)

/-- Result of `loadPosts()`: the unsorted `allPosts` list, the sorted
`posts` list, and how many network fetches were made.  Any failure
(non-success status, rejected fetch, malformed JSON) lands in the
`catch` clause, which sets both lists empty; there is no retry. -/
def loadPosts (env : IndexEnv) : List PostSummary × List PostSummary × Nat :=
  match env.outcome with
  | .ok (some list) => (list, sortByDateDesc env.dateValue list, 1)
  | .ok none => ([], [], 1)
  | .httpError => ([], [], 1)
  | .netError => ([], [], 1)

/-! ## Navigation / history (`setupNavigation`, `navigateTo`) -/

/-- A `(view, slug)` pair as pushed by `history.pushState`. -/
structure NavEntry where
  view : String
  slug : Option String
deriving DecidableEq, Repr

/-- Browser history as a zipper.  The state attached to an entry is
`Option NavEntry`: the initial entry carries `null`. -/
structure Hist where
  backStack : List (Option NavEntry)
  current : Option NavEntry
  fwdStack : List (Option NavEntry)
deriving DecidableEq, Repr

def histLen (h : Hist) : Nat :=
  h.backStack.length + 1 + h.fwdStack.length

/-- `history.pushState(state, url)`: appends a new entry and discards
any forward history. -/
def pushState (h : Hist) (e : NavEntry) : Hist :=
  ⟨h.current :: h.backStack, some e, []⟩

/-- Live navigation state of the `Blog` instance. -/
structure NavApp where
  currentView : String
  currentSlug : Option String
deriving DecidableEq, Repr

/-- What the `render()` dispatch draws for a view. -/
inductive Rendered where
  | listing
  | postView (slug : Option String)
  | searchPage
  | contactsPage
deriving DecidableEq, Repr

/-- The `switch (this.currentView)` of `render()` (the `default`
branch draws the listing). -/
def renderView (app : NavApp) : Rendered :=
  match app.currentView with
  | "home" => .listing
  | "post" => .postView app.currentSlug
  | "search" => .searchPage
  | "contacts" => .contactsPage
  | _ => .listing

/-- `navigateTo(view, slug, pushState)`: sets the state, optionally
pushes a history entry, and renders. -/
def navigateTo (app : NavApp) (h : Hist) (view : String) (slug : Option String)
    (push : Bool) : NavApp × Hist × Rendered :=
  let app' : NavApp := { currentView := view, currentSlug := slug }
  let h' := if push then pushState h ⟨view, slug⟩ else h
  (app', h', renderView app')

/-- The browser's back action: moves the current entry onto the
forward stack and fires `popstate` with the restored entry's state. -/
def browserBack (h : Hist) : Hist × Option (Option NavEntry) :=
  match h.backStack with
  | [] => (h, none)
  | e :: rest => (⟨rest, e, h.current :: h.fwdStack⟩, some e)

/-- The `popstate` listener installed by `setupNavigation`: a `null`
state does nothing; otherwise it restores `(view, slug)` verbatim and
re-renders (`render(false)` — no history push anywhere on this path). -/
def onPopstate (app : NavApp) (state : Option NavEntry) :
    NavApp × Option Rendered :=
  match state with
  | none => (app, none)
  | some s =>
    let app' : NavApp := { currentView := s.view, currentSlug := s.slug }
    (app', some (renderView app'))

/-- A browser back event followed by the `popstate` listener. -/
def backNav (app : NavApp) (h : Hist) : NavApp × Hist × Option Rendered :=
  match browserBack h with
  | (h', none) => (app, h', none)
  | (h', some st) =>
    let r := onPopstate app st
    (r.1, h', r.2)

/-! ## Search page debounce (`setupSearchPage`) -/

/-- What the `#search-results` container shows after
`displayResults(query)`. -/
inductive ResultsView where
  | hint
  | emptyState
  | results (ps : List PostSummary)
deriving DecidableEq, Repr

/-- `displayResults(query)`: blank query shows the hint, no matches
show the empty state, otherwise the result cards. -/
def displayResults (allPosts : List PostSummary) (q : String) : ResultsView :=
  let rs := performSearch allPosts q
  if jsTrim q = "" then .hint
  else if rs.length = 0 then .emptyState
  else .results rs

/-- Search-page state: the input's value, the rendered results, and
the pending debounce timer's fire time (if any). -/
structure SearchState where
  value : String
  shown : ResultsView
  timer : Option Nat
deriving DecidableEq, Repr

/-- The `input` listener at time `t`: `clearTimeout` then
`setTimeout(..., DEBOUNCE_DELAY)`. -/
def onInput (st : SearchState) (t : Nat) (v : String) : SearchState :=
  { value := v, shown := st.shown, timer := some (t + DEBOUNCE_DELAY) }

/-- The `Escape` branch of the `keydown` listener: clears the input
and calls `displayResults('')` synchronously; the pending timer is not
cancelled. -/
def onEscape (allPosts : List PostSummary) (st : SearchState) : SearchState :=
  { value := "", shown := displayResults allPosts "", timer := st.timer }

/-- A debounce timer firing: the callback reads `e.target.value`, the
input's value at fire time. -/
def onTimerFire (allPosts : List PostSummary) (st : SearchState) : SearchState :=
  { value := st.value, shown := displayResults allPosts st.value, timer := none }

/-- Times at which the debounced evaluation runs, for keystrokes at
the given (increasing) times: each keystroke arms a timer for
`t + DEBOUNCE_DELAY`, cancelled when the next keystroke arrives
strictly before it fires. -/
def debounceFires : List Nat → List Nat
  | [] => []
  | [t] => [t + DEBOUNCE_DELAY]
  | t1 :: t2 :: rest =>
    (if t2 < t1 + DEBOUNCE_DELAY then [] else [t1 + DEBOUNCE_DELAY]) ++
      debounceFires (t2 :: rest)

/-! ## Language manager (`features/language.js`) -/

/-- Observable state of `LanguageManager` together with the browser
state it touches: the `localStorage` entry under key `language`, the
`document.documentElement.lang` attribute, and whether
`window.location.reload()` has been invoked. -/
structure LangState where
  currentLang : String
  storedLanguage : Option String
  docLang : String
  reloaded : Bool
deriving DecidableEq, Repr

/-- `getLanguage()`. -/
def getLanguage (st : LangState) : String :=
  st.currentLang

/-- `setLanguage(lang)`: early-returns when `lang` is already current;
otherwise updates the field, persists it, sets the document language
attribute and reloads the page. -/
def setLanguage (st : LangState) (lang : String) : LangState :=
  if st.currentLang = lang then st
  else
    { currentLang := lang
      storedLanguage := some lang
      docLang := if lang = "ru" then "ru" else "en"
      reloaded := true }

/-! ## Concrete example data (from the specification's worked example) -/

def examplePost : PostSummary :=
  { slug := "hi", title := "Hello", excerpt := "world", date := "2024-01-01",
    tags := none, preview := none }

def exampleIndex : List PostSummary :=
  [examplePost]

/-- Case-insensitive substring containment, as the search predicate
applies it: both sides lowercased, then `includes`. -/
def containsCI (s q : String) : Bool :=
  strContains (jsToLower s) (jsToLower q)

/-! ## Theorems -/

lemma matchesQuery_iff (q : String) (p : PostSummary) :
    matchesQuery (jsToLower q) p = true ↔
      (containsCI p.title q = true ∨ containsCI p.excerpt q = true ∨
        ∃ l, p.tags = some l ∧ ∃ t ∈ l, containsCI t q = true) := by
  cases htags : p.tags with
  | none => simp [matchesQuery, containsCI, htags]
  | some l => simp [matchesQuery, containsCI, htags, List.any_eq_true, or_assoc]

/-- C9: calling `setLanguage` with the language that is already current
is a complete no-op: the stored preference, the document language
attribute and the current language value are unchanged, and no page
reload is triggered; `setLanguage (getLanguage ())` is the identity. -/
theorem setLanguage_current_noop (st : LangState) :
    setLanguage st (getLanguage st) = st ∧
    (setLanguage st (getLanguage st)).storedLanguage = st.storedLanguage ∧
    (setLanguage st (getLanguage st)).docLang = st.docLang ∧
    (setLanguage st (getLanguage st)).currentLang = st.currentLang ∧
    (setLanguage st (getLanguage st)).reloaded = st.reloaded := by
  simp [setLanguage, getLanguage]

/-- C5: an empty or whitespace-only query returns the full list in
original index order; a non-empty query returns exactly the summaries
whose title, excerpt or some tag contains the query as a
case-insensitive substring, preserving index order (the result is a
sublist of the index); on the spec's one-post example, `search "ell"`
returns the `"hi"` post and `search "zzz"` returns nothing. -/
theorem performSearch_spec (posts : List PostSummary) (query : String) :
    (jsTrim query = "" → performSearch posts query = posts) ∧
    (performSearch posts query).Sublist posts ∧
    (jsTrim query ≠ "" → ∀ p, p ∈ performSearch posts query ↔
      p ∈ posts ∧ (containsCI p.title query = true ∨ containsCI p.excerpt query = true ∨
        ∃ l, p.tags = some l ∧ ∃ t ∈ l, containsCI t query = true)) ∧
    (performSearch exampleIndex "ell").map PostSummary.slug = ["hi"] ∧
    (performSearch exampleIndex "zzz").map PostSummary.slug = [] := by
  refine ⟨fun h => by simp [performSearch, h], ?_, fun h p => ?_, by decide, by decide⟩
  · by_cases h : jsTrim query = ""
    · simp [performSearch, h]
    · rw [performSearch, if_neg h]
      exact List.filter_sublist posts
  · rw [performSearch, if_neg h, List.mem_filter, matchesQuery_iff]

/-- Closed instantiation of `performSearch_spec`, discharging its
conditional clauses at concrete queries. -/
theorem performSearch_spec_witness :
    performSearch exampleIndex "  " = exampleIndex ∧
    (examplePost ∈ performSearch exampleIndex "ell" ↔
      examplePost ∈ exampleIndex ∧
        (containsCI examplePost.title "ell" = true ∨
          containsCI examplePost.excerpt "ell" = true ∨
          ∃ l, examplePost.tags = some l ∧ ∃ t ∈ l, containsCI t "ell" = true)) :=
  ⟨(performSearch_spec exampleIndex "  ").1 (by decide),
    (performSearch_spec exampleIndex "ell").2.2.1 (by decide) examplePost⟩

/-- C10: `performSearch` is total even when a summary has no `tags`
field (the `post.tags &&` guard short-circuits): such a summary is
matched using only its title and excerpt. -/
theorem performSearch_without_tags (posts : List PostSummary) (query : String)
    (p : PostSummary) (htags : p.tags = none) :
    p ∈ performSearch posts query ↔
      p ∈ posts ∧ (jsTrim query = "" ∨ containsCI p.title query = true ∨
        containsCI p.excerpt query = true) := by
  by_cases h : jsTrim query = ""
  · simp [performSearch, h]
  · rw [performSearch, if_neg h, List.mem_filter]
    simp [matchesQuery, containsCI, htags, h]

/-- Closed instantiation of `performSearch_without_tags` at the
spec's tag-less example post. -/
theorem performSearch_without_tags_witness :
    examplePost.tags = none ∧ examplePost ∈ performSearch exampleIndex "ell" :=
  ⟨rfl, (performSearch_without_tags exampleIndex "ell" examplePost rfl).mpr
    ⟨by decide, Or.inr (Or.inl (by decide))⟩⟩

/-- C6: whenever loading the post index fails — non-success status,
rejected fetch, or malformed JSON — `loadPosts` resolves to the empty
sequence after a single fetch (no retry), and its result is
indistinguishable from loading a genuinely empty index. -/
theorem loadPosts_failure_empty (env : IndexEnv)
    (h : env.outcome = .httpError ∨ env.outcome = .netError ∨
      env.outcome = .ok none) :
    loadPosts env = ([], [], 1) ∧
    loadPosts env = loadPosts ⟨.ok (some []), env.dateValue⟩ := by
  rcases h with h | h | h <;> simp [loadPosts, h, sortByDateDesc]

/-- Closed instantiation of `loadPosts_failure_empty` at a rejected
index fetch. -/
theorem loadPosts_failure_empty_witness :
    loadPosts ⟨.netError, fun _ => 0⟩ = ([], [], 1) :=
  (loadPosts_failure_empty ⟨.netError, fun _ => 0⟩ (Or.inr (Or.inl rfl))).1

/-- C7: a back/forward event whose restored entry carries a previously
pushed `(view, slug)` pair restores that pair verbatim, re-renders, and
leaves the history length unchanged (no new push); in particular
`home → post "a" → back` restores the home view and renders the
listing, not the post. -/
theorem popstate_restores (app : NavApp) (h : Hist) (s : NavEntry)
    (rest : List (Option NavEntry)) (hb : h.backStack = some s :: rest) :
    (backNav app h =
      (⟨s.view, s.slug⟩, ⟨rest, some s, h.current :: h.fwdStack⟩,
        some (renderView ⟨s.view, s.slug⟩)) ∧
      histLen (backNav app h).2.1 = histLen h) ∧
    ∀ (app0 : NavApp) (h0 : Hist),
      (backNav (navigateTo (navigateTo app0 h0 "home" none true).1
          (navigateTo app0 h0 "home" none true).2.1 "post" (some "a") true).1
        (navigateTo (navigateTo app0 h0 "home" none true).1
          (navigateTo app0 h0 "home" none true).2.1 "post" (some "a") true).2.1).1 =
        ⟨"home", none⟩ ∧
      (backNav (navigateTo (navigateTo app0 h0 "home" none true).1
          (navigateTo app0 h0 "home" none true).2.1 "post" (some "a") true).1
        (navigateTo (navigateTo app0 h0 "home" none true).1
          (navigateTo app0 h0 "home" none true).2.1 "post" (some "a") true).2.1).2.2 =
        some .listing ∧
      histLen (backNav (navigateTo (navigateTo app0 h0 "home" none true).1
          (navigateTo app0 h0 "home" none true).2.1 "post" (some "a") true).1
        (navigateTo (navigateTo app0 h0 "home" none true).1
          (navigateTo app0 h0 "home" none true).2.1 "post" (some "a") true).2.1).2.1 =
        histLen (navigateTo (navigateTo app0 h0 "home" none true).1
          (navigateTo app0 h0 "home" none true).2.1 "post" (some "a") true).2.1 := by
  constructor
  · constructor
    · simp [backNav, browserBack, hb, onPopstate]
    · simp only [backNav, browserBack, hb, onPopstate, histLen, List.length_cons]
      omega
  · intro app0 h0
    refine ⟨?_, ?_, ?_⟩ <;>
      simp [navigateTo, pushState, backNav, browserBack, onPopstate, renderView,
        histLen]

/-- Closed instantiation of `popstate_restores` on a concrete history
whose back entry is the pushed home pair. -/
theorem popstate_restores_witness :
    backNav ⟨"post", some "a"⟩
        ⟨[some ⟨"home", none⟩], some ⟨"post", some "a"⟩, []⟩ =
      (⟨"home", none⟩, ⟨[], some ⟨"home", none⟩, [some ⟨"post", some "a"⟩]⟩,
        some .listing) :=
  ((popstate_restores ⟨"post", some "a"⟩
      ⟨[some ⟨"home", none⟩], some ⟨"post", some "a"⟩, []⟩
      ⟨"home", none⟩ [] rfl).1).1

lemma debounceFires_of_chain (t : Nat) :
    ∀ ts : List Nat,
      List.Chain (fun a b => a < b ∧ b < a + DEBOUNCE_DELAY) t ts →
      debounceFires (t :: ts) =
        [(t :: ts).getLast (List.cons_ne_nil t ts) + DEBOUNCE_DELAY] := by
  intro ts
  induction ts generalizing t with
  | nil => intro _; rfl
  | cons t2 rest ih =>
    intro hc
    rcases hc with _ | ⟨⟨_, hlt⟩, hc2⟩
    rw [List.getLast_cons (List.cons_ne_nil t2 rest)]
    rw [debounceFires, if_pos hlt, List.nil_append]
    exact ih t2 hc2

/-- C8: keystrokes whose consecutive gaps are all below the 300ms
debounce delay collapse into a single search evaluation, run once the
input has been quiet for 300ms (at `last + DEBOUNCE_DELAY`); and the
Escape handler clears the input and resets the results to the hint
synchronously — and a still-pending debounce timer firing afterwards
reads the cleared value, so the reset sticks. -/
theorem debounce_collapse_escape_immediate (times : List Nat)
    (hne : times ≠ [])
    (hchain : times.Chain' fun a b => a < b ∧ b < a + DEBOUNCE_DELAY) :
    debounceFires times = [times.getLast hne + DEBOUNCE_DELAY] ∧
    ∀ (allPosts : List PostSummary) (st : SearchState),
      (onEscape allPosts st).value = "" ∧
      (onEscape allPosts st).shown = .hint ∧
      (onTimerFire allPosts (onEscape allPosts st)).shown = .hint := by
  constructor
  · match times, hne with
    | t :: ts, _ => exact debounceFires_of_chain t ts hchain
  · intro allPosts st
    refine ⟨rfl, ?_, ?_⟩ <;>
      simp [onEscape, onTimerFire, displayResults, performSearch, jsTrim, trimChars]

/-- Closed instantiation of `debounce_collapse_escape_immediate` on
three keystrokes 100ms apart and a concrete search-page state. -/
theorem debounce_collapse_escape_immediate_witness :
    debounceFires [0, 100, 250] = [550] ∧
    (onEscape exampleIndex ⟨"zzz", .emptyState, some 520⟩).shown = .hint := by
  have h := debounce_collapse_escape_immediate [0, 100, 250] (by decide)
    (by simp [DEBOUNCE_DELAY])
  exact ⟨h.1, (h.2 exampleIndex ⟨"zzz", .emptyState, some 520⟩).2.1⟩

/-! ### Helper lemmas on substring containment and the error fragment -/

lemma isPrefixB_self_append (p t : List Char) : isPrefixB p (p ++ t) = true := by
  induction p with
  | nil => rfl
  | cons c cs ih => simp [isPrefixB, ih]

lemma isInfixB_append_left_any (pat : List Char) (a : List Char) {b : List Char}
    (h : isInfixB pat b = true) : isInfixB pat (a ++ b) = true := by
  induction a with
  | nil => simpa using h
  | cons c cs ih => simp [isInfixB, ih]

lemma isInfixB_self_append (pat t : List Char) : isInfixB pat (pat ++ t) = true := by
  cases pat with
  | nil => cases t <;> simp [isInfixB, isPrefixB]
  | cons c cs =>
    rw [List.cons_append, isInfixB, ← List.cons_append, isPrefixB_self_append]
    rfl

lemma strContains_errorFragment_msg (msg : String) :
    strContains (errorFragment msg) msg = true := by
  unfold strContains errorFragment
  rw [String.data_append, String.data_append, List.append_assoc]
  exact isInfixB_append_left_any _ _ (isInfixB_self_append _ _)

lemma strContains_errorFragment_back (msg : String) :
    strContains (errorFragment msg) "back-button" = true := by
  unfold strContains errorFragment
  rw [String.data_append, String.data_append, List.append_assoc]
  exact isInfixB_append_left_any _ _ (isInfixB_append_left_any _ _ (by decide))

lemma ne_errorFragment_of_short (v : String) (h : v.length < errPre.length)
    (msg : String) : v ≠ errorFragment msg := by
  intro he
  have hlen : (errorFragment msg).length =
      errPre.length + msg.length + errPost.length := by
    simp [errorFragment, String.length_append]
  rw [he, hlen] at h
  omega

/-! ### Helper lemmas on the retry loop -/

lemma attemptBody_ok_inv (env : FetchEnv) (i : Nat) (html : String)
    (h : attemptBody env i = .ok html) :
    ∃ body, env.fetch i = .ok body ∧ env.markedDefined = true ∧
      html = env.parse body := by
  unfold attemptBody at h
  cases hf : env.fetch i with
  | ok body =>
    rw [hf] at h
    cases hm : env.markedDefined with
    | true => rw [hm] at h; simp at h; exact ⟨body, rfl, rfl, h.symm⟩
    | false => rw [hm] at h; simp at h
  | httpError status => rw [hf] at h; simp at h
  | netError msg => rw [hf] at h; simp at h

def attemptMsg : FetchOutcome → String
  | .ok _ => ""
  | .httpError status => "HTTP " ++ toString status
  | .netError msg => msg

/-- A transport-level failure: the fetch rejected or the response had a
non-success status. -/
def isFailOutcome : FetchOutcome → Bool
  | .ok _ => false
  | .httpError _ => true
  | .netError _ => true

lemma attemptBody_fail (env : FetchEnv) (i : Nat)
    (h : isFailOutcome (env.fetch i) = true) :
    attemptBody env i = .error (attemptMsg (env.fetch i)) := by
  cases hf : env.fetch i with
  | ok body => rw [hf] at h; simp [isFailOutcome] at h
  | httpError status => simp [attemptBody, attemptMsg, hf]
  | netError msg => simp [attemptBody, attemptMsg, hf]

lemma loadAttempts_last_fail (env : FetchEnv) (slug : String) (st : BlogState)
    (i : Nat) (m : String) (h : attemptBody env i = .error m) :
    loadAttempts env slug st i 1 = (some (errorFragment m), [.fetchAttempt i], st) := by
  simp [loadAttempts, h]

lemma loadAttempts_step_fail (env : FetchEnv) (slug : String) (st : BlogState)
    (i n : Nat) (m : String) (h : attemptBody env i = .error m) (hn : n ≠ 0) :
    loadAttempts env slug st i (n + 1) =
      ((loadAttempts env slug st (i + 1) n).1,
        .fetchAttempt i :: .sleep (RETRY_DELAY_BASE * (i + 1)) ::
          (loadAttempts env slug st (i + 1) n).2.1,
        (loadAttempts env slug st (i + 1) n).2.2) := by
  simp [loadAttempts, h, hn]

lemma loadAttempts_resolves (env : FetchEnv) (slug : String) :
    ∀ (remaining : Nat) (st : BlogState) (i : Nat), remaining ≠ 0 →
      ∃ r, (loadAttempts env slug st i remaining).1 = some r ∧
        ((∃ msg, r = errorFragment msg) ∨
          ∃ j body, i ≤ j ∧ j < i + remaining ∧ env.fetch j = .ok body ∧
            env.markedDefined = true ∧ r = env.parse body) := by
  intro remaining
  induction remaining with
  | zero => intro st i h; exact absurd rfl h
  | succ n ih =>
    intro st i _
    cases hA : attemptBody env i with
    | ok html =>
      obtain ⟨body, hf, hmk, hp⟩ := attemptBody_ok_inv env i html hA
      exact ⟨html, by simp [loadAttempts, hA],
        Or.inr ⟨i, body, le_refl i, by omega, hf, hmk, hp⟩⟩
    | error msg =>
      by_cases hn : n = 0
      · subst hn
        exact ⟨errorFragment msg, by simp [loadAttempts, hA], Or.inl ⟨msg, rfl⟩⟩
      · obtain ⟨r, hr, hd⟩ := ih st (i + 1) hn
        refine ⟨r, by simp [loadAttempts, hA, hn, hr], ?_⟩
        rcases hd with hm | ⟨j, body, hij, hjlt, hf, hmk, hp⟩
        · exact Or.inl hm
        · exact Or.inr ⟨j, body, by omega, by omega, hf, hmk, hp⟩

lemma loadAttempts_state (env : FetchEnv) (slug : String) :
    ∀ (remaining : Nat) (st : BlogState) (i : Nat),
      ((loadAttempts env slug st i remaining).2.2 = st ∧
        ((loadAttempts env slug st i remaining).1 = none ∨
          ∃ msg, (loadAttempts env slug st i remaining).1 =
            some (errorFragment msg))) ∨
      ∃ v, (loadAttempts env slug st i remaining).1 = some v ∧
        (loadAttempts env slug st i remaining).2.2.loadedPosts =
          memSet st.loadedPosts slug v := by
  intro remaining
  induction remaining with
  | zero => intro st i; exact Or.inl ⟨rfl, Or.inl rfl⟩
  | succ n ih =>
    intro st i
    cases hA : attemptBody env i with
    | ok html =>
      exact Or.inr ⟨html, by simp [loadAttempts, hA], by simp [loadAttempts, hA]⟩
    | error msg =>
      by_cases hn : n = 0
      · subst hn
        exact Or.inl ⟨by simp [loadAttempts, hA], Or.inr ⟨msg, by simp [loadAttempts, hA]⟩⟩
      · rcases ih st (i + 1) with ⟨hst, hr⟩ | ⟨v, hv, hmem⟩
        · refine Or.inl ⟨by simp [loadAttempts, hA, hn, hst], ?_⟩
          rcases hr with hr | ⟨msg', hr⟩
          · exact Or.inl (by simp [loadAttempts, hA, hn, hr])
          · exact Or.inr ⟨msg', by simp [loadAttempts, hA, hn, hr]⟩
        · exact Or.inr ⟨v, by simp [loadAttempts, hA, hn, hv],
            by simp [loadAttempts, hA, hn, hmem]⟩

lemma loadAttempts_trace_head (env : FetchEnv) (slug : String) (st : BlogState)
    (i n : Nat) :
    ∃ rest, (loadAttempts env slug st i (n + 1)).2.1 = .fetchAttempt i :: rest := by
  cases hA : attemptBody env i with
  | ok html => exact ⟨[], by simp [loadAttempts, hA]⟩
  | error msg =>
    by_cases hn : n = 0
    · subst hn; exact ⟨[], by simp [loadAttempts, hA]⟩
    · exact ⟨.sleep (RETRY_DELAY_BASE * (i + 1)) ::
        (loadAttempts env slug st (i + 1) n).2.1, by simp [loadAttempts, hA, hn]⟩

lemma memLookup_memSet (m : List (String × String)) (slug html : String) :
    memLookup (memSet m slug html) slug = some html := by
  simp [memLookup, memSet, List.lookup]

/-! ### Concrete environments for witnesses and counterexamples -/

def envFail : FetchEnv :=
  ⟨fun _ => .netError "network down", true, id, 0, true⟩

def stEmpty : BlogState :=
  ⟨[], []⟩

def stMem : BlogState :=
  ⟨[("a", "x")], []⟩

/-- C2: `loadPost` always resolves — for every network oracle, cache
content and converter, the result is `some` value, and that value is
either content (from the memory cache, the persistent cache, or a
successful fetch run through the converter) or the fixed error
fragment, which embeds the last error's message and carries the
back-to-listing control. -/
theorem loadPost_always_resolves (env : FetchEnv) (st : BlogState) (slug : String) :
    ∃ r, (loadPost env st slug MAX_RETRIES).1 = some r ∧
      ((∃ msg, r = errorFragment msg ∧ strContains r msg = true ∧
          strContains r "back-button" = true) ∨
        memLookup st.loadedPosts slug = some r ∨
        (getFromCache st.store env.now slug).1 = some r ∨
        ∃ i body, i < MAX_RETRIES ∧ env.fetch i = .ok body ∧
          r = env.parse body) := by
  unfold loadPost
  cases hm : memLookup st.loadedPosts slug with
  | some html => exact ⟨html, rfl, Or.inr (Or.inl rfl)⟩
  | none =>
    cases hc : getFromCache st.store env.now slug with
    | mk cached store' =>
      cases cached with
      | some data => exact ⟨data, rfl, Or.inr (Or.inr (Or.inl rfl))⟩
      | none =>
        obtain ⟨r, hr, hd⟩ :=
          loadAttempts_resolves env slug MAX_RETRIES ⟨st.loadedPosts, store'⟩ 0
            (by decide)
        refine ⟨r, by simpa using hr, ?_⟩
        rcases hd with ⟨msg, hmsg⟩ | ⟨j, body, _, hjlt, hf, _, hp⟩
        · exact Or.inl ⟨msg, hmsg,
            hmsg ▸ strContains_errorFragment_msg msg,
            hmsg ▸ strContains_errorFragment_back msg⟩
        · exact Or.inr (Or.inr (Or.inr ⟨j, body, by omega, hf, hp⟩))

/-- C3: once a slug's post is successfully loaded (the call resolved to
real content, not the error fragment), the memory cache holds that
value, and a second `loadPost` call for the same slug — under any
network environment — returns it with an empty effect trace: no fetch
attempt, no persistent-cache read, and no state change. -/
theorem loadPost_memory_serves_second_call (env1 env2 : FetchEnv) (st : BlogState)
    (slug : String)
    (hsucc : ∃ v, (loadPost env1 st slug MAX_RETRIES).1 = some v ∧
      ∀ msg, v ≠ errorFragment msg) :
    ∃ v, (loadPost env1 st slug MAX_RETRIES).1 = some v ∧
      memLookup (loadPost env1 st slug MAX_RETRIES).2.2.loadedPosts slug = some v ∧
      loadPost env2 (loadPost env1 st slug MAX_RETRIES).2.2 slug MAX_RETRIES =
        (some v, [], (loadPost env1 st slug MAX_RETRIES).2.2) := by
  obtain ⟨v, hv, hnotErr⟩ := hsucc
  have hmem : memLookup (loadPost env1 st slug MAX_RETRIES).2.2.loadedPosts slug =
      some v := by
    unfold loadPost at hv ⊢
    cases hm : memLookup st.loadedPosts slug with
    | some html =>
      rw [hm] at hv
      simp at hv
      show memLookup st.loadedPosts slug = some v
      rw [hm]
      exact congrArg some hv
    | none =>
      rw [hm] at hv
      cases hc : getFromCache st.store env1.now slug with
      | mk cached store' =>
        rw [hc] at hv
        cases cached with
        | some data =>
          simp at hv
          show memLookup (memSet st.loadedPosts slug data) slug = some v
          subst hv
          exact memLookup_memSet st.loadedPosts slug data
        | none =>
          simp at hv
          show memLookup
            (loadAttempts env1 slug ⟨st.loadedPosts, store'⟩ 0
              MAX_RETRIES).2.2.loadedPosts slug = some v
          rcases loadAttempts_state env1 slug MAX_RETRIES
              ⟨st.loadedPosts, store'⟩ 0 with ⟨_, hr | ⟨msg, hr⟩⟩ | ⟨w, hw, hwm⟩
          · rw [hr] at hv; exact absurd hv (by simp)
          · rw [hr] at hv
            exact absurd (Option.some.inj hv).symm (hnotErr msg)
          · rw [hw] at hv
            rw [hwm, ← Option.some.inj hv]
            exact memLookup_memSet st.loadedPosts slug w
  refine ⟨v, hv, hmem, ?_⟩
  generalize hG : (loadPost env1 st slug MAX_RETRIES).2.2 = st1 at hmem
  unfold loadPost
  rw [hmem]

set_option maxRecDepth 4000 in
/-- Closed instantiation of `loadPost_memory_serves_second_call`: the
value `"x"` already loaded for slug `"a"` is served from memory with an
empty trace. -/
theorem loadPost_memory_serves_second_call_witness :
    loadPost envFail stMem "a" MAX_RETRIES = (some "x", [], stMem) := by
  obtain ⟨v, hv, _, hcall⟩ :=
    loadPost_memory_serves_second_call envFail envFail stMem "a"
      ⟨"x", rfl, fun msg => ne_errorFragment_of_short "x" (by decide) msg⟩
  have hvx : v = "x" := by
    have hx : (loadPost envFail stMem "a" MAX_RETRIES).1 = some "x" := by
      simp [loadPost, memLookup, stMem, List.lookup]
    rw [hx] at hv
    exact (Option.some.inj hv).symm
  rw [hvx] at hcall
  exact hcall

/-- C4: a persistent-cache read of an entry whose age is at least the
one-hour TTL deletes the entry and returns absent — and a following
`loadPost` with an empty memory cache falls through to a fresh network
fetch — while a read of a younger entry returns its payload with the
store unchanged. -/
theorem getFromCache_ttl_purge (store : Store) (now : Nat) (slug data : String)
    (ts : Nat) (hk : storeGet store (blogKey slug) = some (.entry data ts)) :
    (CACHE_DURATION ≤ now - ts →
      getFromCache store now slug = (none, storeRemove store (blogKey slug)) ∧
      ∀ (env : FetchEnv) (mem : List (String × String)),
        env.now = now → memLookup mem slug = none →
        ∃ rest, (loadPost env ⟨mem, store⟩ slug MAX_RETRIES).2.1 =
          .storageRead :: .fetchAttempt 0 :: rest) ∧
    (now - ts < CACHE_DURATION →
      getFromCache store now slug = (some data, store)) := by
  constructor
  · intro h
    have hnot : ¬ (now - ts < CACHE_DURATION) := not_lt.mpr h
    have hg : getFromCache store now slug =
        (none, storeRemove store (blogKey slug)) := by
      simp only [getFromCache, getFromCacheBody, hk, if_neg hnot]
    refine ⟨hg, fun env mem henv hmem => ?_⟩
    unfold loadPost
    rw [hmem, henv, hg]
    obtain ⟨rest, hrest⟩ :=
      loadAttempts_trace_head env slug
        ⟨mem, storeRemove store (blogKey slug)⟩ 0 2
    exact ⟨rest, by simpa using hrest⟩
  · intro h
    simp only [getFromCache, getFromCacheBody, hk, if_pos h]

/-- Closed instantiation of `getFromCache_ttl_purge`: an entry stored
at time 0 read at the TTL boundary is purged and a subsequent
`loadPost` starts with a fetch, while the same entry read at time 10
is returned with the store unchanged. -/
theorem getFromCache_ttl_purge_witness :
    getFromCache [("blog_post_a", .entry "old" 0)] 3600000 "a" = (none, []) ∧
    getFromCache [("blog_post_a", .entry "old" 0)] 10 "a" =
      (some "old", [("blog_post_a", .entry "old" 0)]) ∧
    ∃ rest, (loadPost ⟨fun _ => .ok "# hi", true, id, 3600000, true⟩
        ⟨[], [("blog_post_a", .entry "old" 0)]⟩ "a" MAX_RETRIES).2.1 =
      .storageRead :: .fetchAttempt 0 :: rest := by
  have h1 := getFromCache_ttl_purge [("blog_post_a", .entry "old" 0)] 3600000
    "a" "old" 0 rfl
  have h2 := getFromCache_ttl_purge [("blog_post_a", .entry "old" 0)] 10
    "a" "old" 0 rfl
  refine ⟨(h1.1 (by decide)).1, h2.2 (by decide), ?_⟩
  exact (h1.1 (by decide)).2 ⟨fun _ => .ok "# hi", true, id, 3600000, true⟩ [] rfl rfl

/-- C1 (counterexample): with both caches empty and every fetch
attempt failing, `loadPost` does NOT suspend after the third failure:
the claimed behaviour — three attempts, sleeps of 1000ms, 2000ms and
3000ms, then the error fragment — is false, because the sleep list is
only `[1000, 2000]`. -/
theorem loadPost_third_sleep_counterexample :
    ¬ (fetchCount (loadPost envFail stEmpty "a" MAX_RETRIES).2.1 = 3 ∧
       sleepsOf (loadPost envFail stEmpty "a" MAX_RETRIES).2.1 =
         [1000, 2000, 3000] ∧
       (loadPost envFail stEmpty "a" MAX_RETRIES).1 =
         some (errorFragment "network down")) := by
  intro h
  have hs : sleepsOf (loadPost envFail stEmpty "a" MAX_RETRIES).2.1 =
      [1000, 2000] := by
    have htrace : (loadPost envFail stEmpty "a" MAX_RETRIES).2.1 =
        [.storageRead, .fetchAttempt 0, .sleep 1000, .fetchAttempt 1,
          .sleep 2000, .fetchAttempt 2] := by
      have h0 := attemptBody_fail envFail 0 rfl
      have h1 := attemptBody_fail envFail 1 rfl
      have h2 := attemptBody_fail envFail 2 rfl
      have s2 := loadAttempts_last_fail envFail "a" stEmpty 2 _ h2
      have s1 := loadAttempts_step_fail envFail "a" stEmpty 1 1 _ h1 (by decide)
      have s0 := loadAttempts_step_fail envFail "a" stEmpty 0 2 _ h0 (by decide)
      simp only [s2] at s1
      simp only [show (1 : Nat) + 1 = 2 from rfl] at s1
      simp only [s1] at s0
      simp only [show (2 : Nat) + 1 = 3 from rfl] at s0
      show Ev.storageRead ::
        (loadAttempts envFail "a" stEmpty 0 MAX_RETRIES).2.1 = _
      rw [show MAX_RETRIES = 3 from rfl, s0]
      rfl
    rw [htrace]
    rfl
  rw [hs] at h
  exact absurd h.2.1 (by decide)

/-- C1 (amended): with the slug absent from both caches and every
fetch attempt failing at the transport level, `loadPost` makes exactly
3 fetch attempts, sleeping `RETRY_DELAY_BASE * 1` after the first
failure and `RETRY_DELAY_BASE * 2` after the second, and returns the
fixed error fragment for the last error immediately after the third
failure, with no further suspension. -/
theorem loadPost_retry_schedule (env : FetchEnv) (st : BlogState) (slug : String)
    (hmem : memLookup st.loadedPosts slug = none)
    (hcache : (getFromCache st.store env.now slug).1 = none)
    (hfail : ∀ i, i < MAX_RETRIES → isFailOutcome (env.fetch i) = true) :
    (loadPost env st slug MAX_RETRIES).1 =
      some (errorFragment (attemptMsg (env.fetch 2))) ∧
    fetchCount (loadPost env st slug MAX_RETRIES).2.1 = 3 ∧
    sleepsOf (loadPost env st slug MAX_RETRIES).2.1 =
      [RETRY_DELAY_BASE * 1, RETRY_DELAY_BASE * 2] := by
  have h0 := attemptBody_fail env 0 (hfail 0 (by decide))
  have h1 := attemptBody_fail env 1 (hfail 1 (by decide))
  have h2 := attemptBody_fail env 2 (hfail 2 (by decide))
  have hc : getFromCache st.store env.now slug =
      (none, (getFromCache st.store env.now slug).2) := by
    rw [Prod.ext_iff]
    exact ⟨hcache, rfl⟩
  set store' := (getFromCache st.store env.now slug).2 with hstore
  have s2 := loadAttempts_last_fail env slug ⟨st.loadedPosts, store'⟩ 2 _ h2
  have s1 := loadAttempts_step_fail env slug ⟨st.loadedPosts, store'⟩ 1 1 _ h1
    (by decide)
  have s0 := loadAttempts_step_fail env slug ⟨st.loadedPosts, store'⟩ 0 2 _ h0
    (by decide)
  simp only [s2] at s1
  simp only [show (1 : Nat) + 1 = 2 from rfl] at s1
  simp only [s1] at s0
  simp only [show (2 : Nat) + 1 = 3 from rfl] at s0
  have hload : loadPost env st slug MAX_RETRIES =
      (some (errorFragment (attemptMsg (env.fetch 2))),
        [.storageRead, .fetchAttempt 0, .sleep (RETRY_DELAY_BASE * 1),
          .fetchAttempt 1, .sleep (RETRY_DELAY_BASE * 2), .fetchAttempt 2],
        ⟨st.loadedPosts, store'⟩) := by
    unfold loadPost
    rw [hmem, hc]
    show ((loadAttempts env slug ⟨st.loadedPosts, store'⟩ 0 MAX_RETRIES).1,
      Ev.storageRead ::
        (loadAttempts env slug ⟨st.loadedPosts, store'⟩ 0 MAX_RETRIES).2.1,
      (loadAttempts env slug ⟨st.loadedPosts, store'⟩ 0 MAX_RETRIES).2.2) = _
    rw [show MAX_RETRIES = 3 from rfl, s0]
  rw [hload]
  exact ⟨rfl, rfl, rfl⟩

/-- Closed instantiation of `loadPost_retry_schedule` at an
always-rejecting network with empty caches. -/
theorem loadPost_retry_schedule_witness :
    (loadPost envFail stEmpty "a" MAX_RETRIES).1 =
      some (errorFragment "network down") ∧
    fetchCount (loadPost envFail stEmpty "a" MAX_RETRIES).2.1 = 3 ∧
    sleepsOf (loadPost envFail stEmpty "a" MAX_RETRIES).2.1 = [1000, 2000] :=
  loadPost_retry_schedule envFail stEmpty "a" rfl rfl (by decide)

end Blog
